import Mathlib

/-!
Verification of the SEBOT game engine (a Discord social-deduction game bot)
against its natural-language specification.

The Python sources are shallowly embedded: each relevant Python function is
translated into a Lean function over an explicit `Game` record.  Python dicts
(insertion ordered) are modelled as association lists, Python sets as
duplicate-free lists, and in-place mutation as explicit state passing
(`Game → Game × result`).  Randomness (`random.choice`) is modelled by an
injected `pick` function together with the hypothesis that `pick` returns an
element of a nonempty list.  Exceptions are modelled with `Except`.
-/

namespace SEBOT

/-- Lookup in an insertion-ordered association list (Python `dict.get(k)`). -/
def alistGet {κ α : Type} [DecidableEq κ] (m : List (κ × α)) (k : κ) : Option α :=
  match m with
  | [] => none
  | e :: rest => if e.1 = k then some e.2 else alistGet rest k

/-- Lookup with default (Python `dict.get(k, d)`). -/
def alistGetD {κ α : Type} [DecidableEq κ] (m : List (κ × α)) (k : κ) (d : α) : α :=
  (alistGet m k).getD d

/-- Assignment `m[k] = v` on an insertion-ordered association list: replaces the
binding in place if the key is present, otherwise appends it at the end, which
is exactly the behaviour of assignment on a Python dict. -/
def alistSet {κ α : Type} [DecidableEq κ] (m : List (κ × α)) (k : κ) (v : α) : List (κ × α) :=
  match m with
  | [] => [(k, v)]
  | e :: rest => if e.1 = k then (k, v) :: rest else e :: alistSet rest k v

/-- Python `set.add`: insert if not yet a member. -/
def setAdd {α : Type} [DecidableEq α] (s : List α) (x : α) : List α :=
  if x ∈ s then s else s ++ [x]

theorem alistGet_set_self {κ α : Type} [DecidableEq κ] (m : List (κ × α)) (k : κ) (v : α) :
    alistGet (alistSet m k v) k = some v := by
  induction m with
  | nil => simp [alistGet, alistSet]
  | cons e rest ih =>
    by_cases h : e.1 = k <;> simp [alistGet, alistSet, h, ih]

theorem alistGet_set_ne {κ α : Type} [DecidableEq κ] (m : List (κ × α)) (k t : κ) (v : α)
    (h : t ≠ k) : alistGet (alistSet m k v) t = alistGet m t := by
  induction m with
  | nil =>
    simp only [alistGet, alistSet]
    rw [if_neg (fun hh => h hh.symm)]
  | cons e rest ih =>
    by_cases he : e.1 = k
    · subst he
      simp [alistGet, alistSet, Ne.symm h, h]
    · by_cases ht : e.1 = t <;> simp [alistGet, alistSet, he, ht, h, ih]

/-- Vote target as stored in the vote ledger: a player id or the sentinel
string vote_none. -/
inductive VoteTarget
  | player (uid : Nat)
  | voteNone
deriving DecidableEq, Repr

/-- Kill target as stored in the night-action log: a player id or the sentinel
string kill_none. -/
inductive KillTarget
  | player (uid : Nat)
  | killNone
deriving DecidableEq, Repr

/-- Port of the `Player` dataclass in helpers/game_state.py. -/
structure Player where
  user_id : Nat
  username : String
  display_name : String
  anon_identity : Option String := none
  alignment : Option String := none
  role : Option String := none
  is_alive : Bool := true
deriving DecidableEq, Repr

/-- Port of the `GameConfig` dataclass (fields used by the engine core). -/
structure GameConfig where
  anon_mode : Bool := false
  secret_votes : Bool := false
  win_condition : String := "parity"
  allow_no_elimination : Bool := true
  min_votes_to_eliminate : Int := 0
  day_length_minutes : Nat := 2880
  night_length_minutes : Nat := 1440
  auto_phase_transition : Bool := true
deriving DecidableEq, Repr

/-- Port of the `RoleConfig` dataclass (fields used by the engine core). -/
structure RoleConfig where
  seeker_mode : String := "both"
  thug_mode : String := "survive"
  coinshot_ammo : Nat := 0
  smoker_phase : String := "both"
deriving DecidableEq, Repr

/-- A night action entry `(actor_id, target_id, extra_data)` whose target is a
kill target (the elim_kill and kill lists). -/
abbrev KillAction := Nat × Option KillTarget × Option Nat

/-- A night or day action entry `(actor_id, target_id, extra_data)` whose
target is a plain player id. -/
abbrev PlayerAction := Nat × Option Nat × Option Nat

/-- The per-day night-action log: in Python a dict from the action-type string
to the list of entries; the resolution engine reads exactly these four keys. -/
structure NightActionLog where
  elim_kill : List KillAction := []
  kill : List KillAction := []
  protect : List PlayerAction := []
  investigate : List PlayerAction := []
deriving DecidableEq, Repr

instance : Inhabited NightActionLog := ⟨{}⟩

/-- The per-day day-action log (Rioter/Soother): dict from action-type string
to entries; `redirect_vote` entries carry the new target in `extra_data`. -/
structure DayActionLog where
  cancel_vote : List PlayerAction := []
  redirect_vote : List PlayerAction := []
deriving DecidableEq, Repr

instance : Inhabited DayActionLog := ⟨{}⟩

/-- Game phase.  The Python code stores the phase as a string and tests it
with substring checks on Day / Night; only those two states are reachable
during play. -/
inductive Phase
  | Day
  | Night
deriving DecidableEq, Repr

/-- Port of the `Game` dataclass in helpers/game_state.py (the fields the
engine core reads or writes). -/
structure Game where
  guild_id : Nat
  config : GameConfig := {}
  roles : RoleConfig := {}
  status : String := "setup"
  phase : Phase := .Day
  day_number : Nat := 0
  phase_end_time : Option Nat := none
  warnings_sent : List String := []
  players : List (Nat × Player) := []
  votes : List (Nat × List (Nat × VoteTarget)) := []
  eliminated : List Nat := []
  night_actions : List (Nat × NightActionLog) := []
  day_actions : List (Nat × DayActionLog) := []
  smoker_targets : List (Nat × Option Nat) := []
  smoker_active : List (Nat × Bool) := []
  thug_used : List Nat := []
  delayed_deaths : List (Nat × Nat × String) := []
  mistborn_powers_used : List (Nat × List String) := []
  mistborn_current_power : List (Nat × Option String) := []
  coinshot_kills_used : List (Nat × Nat) := []
  action_results : List (Nat × List String) := []
deriving DecidableEq, Repr

/-- Python `game.players.get(user_id)`. -/
def Game.getPlayer (g : Game) (uid : Nat) : Option Player :=
  alistGet g.players uid

/-- Port of `Game.get_player_display_name`. -/
def Game.get_player_display_name (g : Game) (uid : Nat) : String :=
  match g.getPlayer uid with
  | none => "Unknown"
  | some player =>
    match player.anon_identity with
    | some ident => if g.config.anon_mode ∧ ident ≠ "" then ident else player.display_name
    | none => player.display_name

/-- Port of `Game.get_faction_name` (the default config names). -/
def Game.get_faction_name (g : Game) (alignment : Option String) : String :=
  match alignment with
  | some a => if a = "village" then "Village" else if a = "elims" then "Elims" else a
  | none => "Unknown"

/-- Port of `Game.get_day_votes`. -/
def Game.get_day_votes (g : Game) : List (Nat × VoteTarget) :=
  alistGetD g.votes g.day_number []

/-- Port of `Game.add_action_result`. -/
def Game.add_action_result (g : Game) (player_id : Nat) (message : String) : Game :=
  { g with action_results :=
      alistSet g.action_results player_id (alistGetD g.action_results player_id [] ++ [message]) }

/-- Port of `Game.is_smoked` in helpers/game_state.py: first branch tests the
player themself (role Smoker plus the active flag defaulting to true, with no
liveness test); second branch scans the smoker-target map for a living, active
protector whose recorded target is this player. -/
def Game.is_smoked (g : Game) (player_id : Nat) : Bool :=
  let selfSmoker :=
    match g.getPlayer player_id with
    | some player => player.role == some "Smoker" && alistGetD g.smoker_active player_id true
    | none => false
  if selfSmoker then true
  else
    g.smoker_targets.any (fun e =>
      e.2 == some player_id &&
      (match g.getPlayer e.1 with
       | some smoker => smoker.is_alive && alistGetD g.smoker_active e.1 true
       | none => false))

/-- Modelled from the claim wording for C7: shielded iff the participant is
themself an active, living, self-shielding participant, or is the current
extended target of some living, active shielding participant. -/
def isShieldedClaim (g : Game) (player_id : Nat) : Bool :=
  (match g.getPlayer player_id with
   | some player =>
     player.role == some "Smoker" && player.is_alive && alistGetD g.smoker_active player_id true
   | none => false)
  ||
  g.smoker_targets.any (fun e =>
    e.2 == some player_id &&
    (match g.getPlayer e.1 with
     | some smoker =>
       smoker.role == some "Smoker" && smoker.is_alive && alistGetD g.smoker_active e.1 true
     | none => false))

/-- A game whose only participant is a dead Smoker with default smoker state. -/
def gameDeadSmoker : Game :=
  { guild_id := 1,
    status := "active",
    players := [(1, { user_id := 1, username := "u1", display_name := "P1",
                      alignment := some "village", role := some "Smoker",
                      is_alive := false })] }

/-- C7 counterexample: on a dead Smoker with the active flag at its default,
the code reports the participant as shielded although the claim requires the
self-shielding participant to be living. -/
theorem C7_is_smoked_counterexample :
    Game.is_smoked gameDeadSmoker 1 = true ∧ isShieldedClaim gameDeadSmoker 1 = false := by
  constructor <;> rfl

/-- C7 amended: the shield predicate returns true exactly when the participant
is themself an active participant with the Smoker role (whether or not they
are alive), or is the recorded extended target of some living, active
participant in the shield-target map. -/
theorem C7_is_smoked_characterization (g : Game) (pid : Nat) :
    g.is_smoked pid = true ↔
      ((∃ p, g.getPlayer pid = some p ∧ p.role = some "Smoker" ∧
          alistGetD g.smoker_active pid true = true)
       ∨ (∃ e, e ∈ g.smoker_targets ∧ e.2 = some pid ∧
          ∃ s, g.getPlayer e.1 = some s ∧ s.is_alive = true ∧
            alistGetD g.smoker_active e.1 true = true)) := by
  unfold Game.is_smoked
  constructor
  · intro h
    by_cases hself :
        (match g.getPlayer pid with
         | some player => player.role == some "Smoker" && alistGetD g.smoker_active pid true
         | none => false) = true
    · left
      cases hp : g.getPlayer pid with
      | none => rw [hp] at hself; simp at hself
      | some p =>
        rw [hp] at hself
        simp only [Bool.and_eq_true, beq_iff_eq] at hself
        exact ⟨p, rfl, hself.1, hself.2⟩
    · right
      rw [if_neg hself] at h
      rcases List.any_eq_true.mp h with ⟨e, he, hcond⟩
      simp only [Bool.and_eq_true, beq_iff_eq] at hcond
      refine ⟨e, he, hcond.1, ?_⟩
      cases hs : g.getPlayer e.1 with
      | none => rw [hs] at hcond; simp at hcond
      | some s =>
        rw [hs] at hcond
        simp only [Bool.and_eq_true] at hcond
        exact ⟨s, rfl, hcond.2.1, hcond.2.2⟩
  · intro h
    rcases h with ⟨p, hp, hrole, hact⟩ | ⟨e, he, htgt, s, hs, halive, hact⟩
    · rw [hp]
      simp [hrole, hact]
    · by_cases hself :
          (match g.getPlayer pid with
           | some player => player.role == some "Smoker" && alistGetD g.smoker_active pid true
           | none => false) = true
      · rw [if_pos hself]
      · rw [if_neg hself]
        refine List.any_eq_true.mpr ⟨e, he, ?_⟩
        rw [hs]
        simp [htgt, halive, hact]

/-- Python `str.lower()` (ASCII case mapping suffices for the identities and
names involved). -/
def pyLower (s : String) : String :=
  String.mk (s.data.map Char.toLower)

/-- Python `str.strip()`: drop leading and trailing whitespace. -/
def pyStrip (s : String) : String :=
  String.mk (((s.data.dropWhile Char.isWhitespace).reverse.dropWhile Char.isWhitespace).reverse)

/-- Helper for `pyWords`: accumulates the current word (reversed) while
scanning the character list. -/
def pyWordsAux : List Char → List Char → List String
  | [], acc => if acc = [] then [] else [String.mk acc.reverse]
  | c :: rest, acc =>
    if c.isWhitespace then
      if acc = [] then pyWordsAux rest []
      else String.mk acc.reverse :: pyWordsAux rest []
    else pyWordsAux rest (c :: acc)

/-- Python `str.split()` with no argument: split on whitespace runs, dropping
empty pieces. -/
def pyWords (s : String) : List String :=
  pyWordsAux s.data []

/-- Whether the first list is an initial segment of the second. -/
def charsStartWith : List Char → List Char → Bool
  | [], _ => true
  | _ :: _, [] => false
  | a :: as, b :: bs => a == b && charsStartWith as bs

/-- Whether `needle` occurs contiguously inside `hay`. -/
def charsContain (needle : List Char) : List Char → Bool
  | [] => needle.isEmpty
  | c :: rest => charsStartWith needle (c :: rest) || charsContain needle rest

/-- Python `needle in hay` on strings. -/
def strContains (hay needle : String) : Bool :=
  charsContain needle.data hay.data

/-- Port of the `MatchResult` class in helpers/matching.py. -/
structure MatchResult where
  success : Bool
  target_id : Option Nat := none
  target_display : Option String := none
  error : Option String := none
deriving DecidableEq, Repr

/-- The matches the loop body of `find_player_by_name` appends for one player
entry: a candidate `(uid, display, tag)` where the tag is one of exact, color,
animal, partial, partial_color, partial_animal. -/
def matchOne (g : Game) (target_name : String) (alive_only : Bool)
    (e : Nat × Player) : List (Nat × String × String) :=
  let uid := e.1
  let player := e.2
  if alive_only ∧ ¬player.is_alive then []
  else if g.config.anon_mode then
    match player.anon_identity with
    | none => []
    | some ident =>
      if ident = "" then []
      else
        let anon_full := pyLower ident
        match pyWords ident with
        | [colorRaw, animalRaw] =>
          let color := pyLower colorRaw
          let animal := pyLower animalRaw
          if anon_full = target_name then [(uid, ident, "exact")]
          else if color = target_name then [(uid, ident, "color")]
          else if animal = target_name then [(uid, ident, "animal")]
          else if target_name.length ≥ 4 then
            if strContains anon_full target_name then [(uid, ident, "partial")]
            else if strContains color target_name then [(uid, ident, "partial_color")]
            else if strContains animal target_name then [(uid, ident, "partial_animal")]
            else []
          else []
        | _ => []
  else
    let check_name := pyLower player.display_name
    let check_username := pyLower player.username
    if check_name = target_name ∨ check_username = target_name then
      [(uid, player.display_name, "exact")]
    else if target_name.length ≥ 4 then
      if strContains check_name target_name ∨ strContains check_username target_name then
        [(uid, player.display_name, "partial")]
      else []
    else []

/-- The `matches` list built by the player loop of `find_player_by_name`: each
player entry contributes its own candidates independently, in player order. -/
def collectMatches (g : Game) (target_name : String) (alive_only : Bool) :
    List (Nat × String × String) :=
  g.players.flatMap (matchOne g target_name alive_only)

/-- The three tags of the exact tier. -/
def exactTags : List String := ["exact", "color", "animal"]

/-- Placeholder candidate used to express Python list indexing on a list whose
length was just checked. -/
def dummyMatch : Nat × String × String := (0, "", "")

/-- Port of `find_player_by_name` in helpers/matching.py. -/
def find_player_by_name (g : Game) (raw_name : String) (alive_only : Bool) : MatchResult :=
  let target_name := pyLower (pyStrip raw_name)
  let ms := collectMatches g target_name alive_only
  if ms.length = 0 then
    { success := false,
      error := some ("Could not find player matching: " ++ target_name) }
  else if ms.length = 1 then
    let m := ms.headD dummyMatch
    { success := true, target_id := some m.1, target_display := some m.2.1 }
  else
    let exact_matches := ms.filter (fun m => exactTags.contains m.2.2)
    if exact_matches.length = 1 then
      let m := exact_matches.headD dummyMatch
      { success := true, target_id := some m.1, target_display := some m.2.1 }
    else if exact_matches.length > 1 then
      { success := false,
        error := some ("Multiple players match " ++ target_name ++ ": " ++
          String.intercalate ", " (exact_matches.map (fun m => m.2.1))) }
    else
      { success := false,
        error := some ("Multiple players match " ++ target_name ++ ": " ++
          String.intercalate ", " (ms.map (fun m => m.2.1))) }

theorem matchOne_fst (g : Game) (tn : String) (ao : Bool) (e : Nat × Player) :
    ∀ m ∈ matchOne g tn ao e, m.1 = e.1 := by
  intro m hm
  simp only [matchOne] at hm
  repeat' split at hm
  all_goals simp_all

theorem matchOne_badAlias (g : Game) (tn : String) (ao : Bool) (e : Nat × Player)
    (hmode : g.config.anon_mode = true)
    (halias : e.2.anon_identity = none ∨ (pyWords ((e.2.anon_identity).getD "")).length ≠ 2) :
    matchOne g tn ao e = [] := by
  simp only [matchOne, hmode, if_true]
  split
  · rfl
  rcases halias with h | h
  · simp [h]
  · cases hid : e.2.anon_identity with
    | none => simp
    | some ident =>
      rw [hid] at h
      simp only [Option.getD] at h
      by_cases hemp : ident = ""
      · simp [hemp]
      · have hnot : ∀ x y, pyWords ident ≠ [x, y] := by
          intro x y hxy
          rw [hxy] at h
          simp at h
        cases hw : pyWords ident with
        | nil => simp [hemp, hw]
        | cons a t =>
          cases t with
          | nil => simp [hemp, hw]
          | cons b t2 =>
            cases t2 with
            | nil => exact absurd hw (hnot a b)
            | cons c t3 => simp [hemp, hw]

theorem find_target_mem (g : Game) (raw_name : String) (ao : Bool) (u : Nat)
    (h : (find_player_by_name g raw_name ao).target_id = some u) :
    ∃ m ∈ collectMatches g (pyLower (pyStrip raw_name)) ao, m.1 = u := by
  simp only [find_player_by_name] at h
  revert h
  generalize collectMatches g (pyLower (pyStrip raw_name)) ao = l
  intro h
  by_cases h0 : l.length = 0
  · rw [if_pos h0] at h
    simp at h
  · rw [if_neg h0] at h
    by_cases h1 : l.length = 1
    · rw [if_pos h1] at h
      cases l with
      | nil => simp at h0
      | cons a t =>
        refine ⟨a, List.mem_cons_self a t, ?_⟩
        simp only [List.headD] at h
        simp at h
        omega
    · rw [if_neg h1] at h
      by_cases he1 : (l.filter (fun m => exactTags.contains m.2.2)).length = 1
      · rw [if_pos he1] at h
        cases hex : l.filter (fun m => exactTags.contains m.2.2) with
        | nil => rw [hex] at he1; simp at he1
        | cons a t =>
          rw [hex] at h
          simp only [List.headD] at h
          have ha : a ∈ l := by
            have : a ∈ l.filter (fun m => exactTags.contains m.2.2) := by
              rw [hex]; exact List.mem_cons_self a t
            exact List.mem_of_mem_filter this
          refine ⟨a, ha, ?_⟩
          have := h
          simp at this
          omega
      · rw [if_neg he1] at h
        by_cases hgt : (l.filter (fun m => exactTags.contains m.2.2)).length > 1
        · rw [if_pos hgt] at h; simp at h
        · rw [if_neg hgt] at h; simp at h

/-- C10: in anonymity mode, a participant whose alias is unset or does not
consist of exactly two words is never returned by the target resolver, for
every query string. -/
theorem C10_anon_alias_excluded (g : Game) (raw_name : String) (alive_only : Bool) (uid : Nat)
    (hmode : g.config.anon_mode = true)
    (halias : ∀ p : Player, (uid, p) ∈ g.players →
      p.anon_identity = none ∨ (pyWords ((p.anon_identity).getD "")).length ≠ 2) :
    (find_player_by_name g raw_name alive_only).target_id ≠ some uid := by
  intro hcontra
  obtain ⟨m, hm, hfst⟩ := find_target_mem g raw_name alive_only uid hcontra
  obtain ⟨e, he, hme⟩ := List.mem_flatMap.mp hm
  have hfst2 : m.1 = e.1 := matchOne_fst g _ alive_only e m hme
  have heuid : e.1 = uid := by rw [← hfst2, hfst]
  have hempty : matchOne g (pyLower (pyStrip raw_name)) alive_only e = [] := by
    apply matchOne_badAlias g _ alive_only e hmode
    apply halias e.2
    rw [← heuid]
    exact he
  rw [hempty] at hme
  simp at hme

/-- A two-player anonymity-mode game used by the C10 witness: player 7 has a
one-word alias, player 8 a well-formed one. -/
def gameOneWordAlias : Game :=
  { guild_id := 3, status := "active",
    config := { anon_mode := true },
    players :=
      [(7, { user_id := 7, username := "carol", display_name := "Carol",
             anon_identity := some "Solo", alignment := some "village" }),
       (8, { user_id := 8, username := "dave", display_name := "Dave",
             anon_identity := some "Teal Otter", alignment := some "village" })] }

theorem C10_anon_alias_excluded_witness :
    (find_player_by_name gameOneWordAlias "Solo" true).target_id ≠ some 7 := by
  apply C10_anon_alias_excluded gameOneWordAlias "Solo" true 7 rfl
  intro p hp
  simp only [gameOneWordAlias, List.mem_cons, List.not_mem_nil, or_false,
    Prod.mk.injEq] at hp
  rcases hp with ⟨-, hp⟩ | ⟨h78, -⟩
  · subst hp
    right
    decide
  · exact absurd h78 (by decide)

/-- The anonymity-mode game of the C6 scenario: aliases Amber Vulture and
Crimson Amberfin. -/
def gameAmber : Game :=
  { guild_id := 2, status := "active",
    config := { anon_mode := true },
    players :=
      [(1, { user_id := 1, username := "alice", display_name := "Alice",
             anon_identity := some "Amber Vulture", alignment := some "village" }),
       (2, { user_id := 2, username := "bob", display_name := "Bob",
             anon_identity := some "Crimson Amberfin", alignment := some "village" })] }

/-- C6: target resolution returns the unique candidate when exactly one
remains, prefers the exact tier (full-name, first-word, second-word) over the
partial tier, reports ambiguity when the exact tier holds two or more
candidates instead of falling through, reports ambiguity when only the partial
tier is inhabited and holds two or more candidates, and resolves the query
Amber against Amber Vulture and Crimson Amberfin uniquely to Amber Vulture. -/
theorem C6_matching_tiers (g : Game) (raw_name : String) (alive_only : Bool) :
    (collectMatches g (pyLower (pyStrip raw_name)) alive_only = [] →
      (find_player_by_name g raw_name alive_only).success = false ∧
      (find_player_by_name g raw_name alive_only).target_id = none) ∧
    (∀ m, collectMatches g (pyLower (pyStrip raw_name)) alive_only = [m] →
      find_player_by_name g raw_name alive_only =
        { success := true, target_id := some m.1, target_display := some m.2.1 }) ∧
    (2 ≤ (collectMatches g (pyLower (pyStrip raw_name)) alive_only).length →
      ∀ m, (collectMatches g (pyLower (pyStrip raw_name)) alive_only).filter
          (fun c => exactTags.contains c.2.2) = [m] →
      find_player_by_name g raw_name alive_only =
        { success := true, target_id := some m.1, target_display := some m.2.1 }) ∧
    (2 ≤ ((collectMatches g (pyLower (pyStrip raw_name)) alive_only).filter
          (fun c => exactTags.contains c.2.2)).length →
      (find_player_by_name g raw_name alive_only).success = false ∧
      (find_player_by_name g raw_name alive_only).target_id = none) ∧
    (2 ≤ (collectMatches g (pyLower (pyStrip raw_name)) alive_only).length →
      (collectMatches g (pyLower (pyStrip raw_name)) alive_only).filter
          (fun c => exactTags.contains c.2.2) = [] →
      (find_player_by_name g raw_name alive_only).success = false ∧
      (find_player_by_name g raw_name alive_only).target_id = none) ∧
    find_player_by_name gameAmber "Amber" true =
      { success := true, target_id := some 1, target_display := some "Amber Vulture",
        error := none } := by
  refine ⟨?_, ?_, ?_, ?_, ?_, ?_⟩
  · intro h
    simp only [find_player_by_name]
    rw [h]
    simp
  · intro m h
    simp only [find_player_by_name]
    rw [h]
    simp
  · intro h2 m hex
    simp only [find_player_by_name]
    rw [hex]
    have h0 : ¬(collectMatches g (pyLower (pyStrip raw_name)) alive_only).length = 0 := by omega
    have h1 : ¬(collectMatches g (pyLower (pyStrip raw_name)) alive_only).length = 1 := by omega
    simp [h0, h1]
  · intro h2
    have hms : 2 ≤ (collectMatches g (pyLower (pyStrip raw_name)) alive_only).length :=
      le_trans h2 (List.length_filter_le _ _)
    simp only [find_player_by_name]
    have h0 : ¬(collectMatches g (pyLower (pyStrip raw_name)) alive_only).length = 0 := by omega
    have h1 : ¬(collectMatches g (pyLower (pyStrip raw_name)) alive_only).length = 1 := by omega
    have he1 : ¬((collectMatches g (pyLower (pyStrip raw_name)) alive_only).filter
        (fun c => exactTags.contains c.2.2)).length = 1 := by omega
    have hgt : ((collectMatches g (pyLower (pyStrip raw_name)) alive_only).filter
        (fun c => exactTags.contains c.2.2)).length > 1 := by omega
    rw [if_neg h0, if_neg h1, if_neg he1, if_pos hgt]
    exact ⟨rfl, rfl⟩
  · intro h2 hex
    simp only [find_player_by_name]
    rw [hex]
    have h0 : ¬(collectMatches g (pyLower (pyStrip raw_name)) alive_only).length = 0 := by omega
    have h1 : ¬(collectMatches g (pyLower (pyStrip raw_name)) alive_only).length = 1 := by omega
    simp [h0, h1]
  · decide

theorem C6_matching_tiers_witness :
    find_player_by_name gameAmber "Amber" true =
      { success := true, target_id := some 1, target_display := some "Amber Vulture",
        error := none } :=
  (C6_matching_tiers gameAmber "Amber" true).2.2.2.2.2

/-- Feedback text queued for a Soother whose target was smoked (emoji and
apostrophes of the source text dropped). -/
def sootheBlockedMsg : String :=
  "Your Soothe was blocked. The target was protected from your influence."

/-- Feedback text queued for a successful Soothe. -/
def sootheSuccessMsg (name : String) : String :=
  "You successfully Soothed " ++ name ++ " vote."

/-- Feedback text queued for a Rioter whose target was smoked. -/
def riotBlockedMsg : String :=
  "Your Riot was blocked. The target was protected from your influence. Your vote is still cancelled."

/-- Feedback text queued for a successful Riot. -/
def riotSuccessMsg (name newName : String) : String :=
  "You successfully Rioted " ++ name ++ " vote to " ++ newName ++ "."

/-- One iteration of the Soother loop in `calculate_effective_votes`: threads
the game (queued feedback) and the cancelled-votes set. -/
def processSootheAction (add_results : Bool) (st : Game × List Nat) (act : PlayerAction) :
    Game × List Nat :=
  let (g, cancelled) := st
  match act.2.1 with
  | none => (g, cancelled)
  | some target_id =>
    match g.getPlayer target_id, g.getPlayer act.1 with
    | some _, some actor =>
      if ¬actor.is_alive then (g, cancelled)
      else if g.is_smoked target_id then
        ((if add_results then g.add_action_result act.1 sootheBlockedMsg else g), cancelled)
      else
        ((if add_results then
            g.add_action_result act.1 (sootheSuccessMsg (g.get_player_display_name target_id))
          else g), setAdd cancelled target_id)
    | _, _ => (g, cancelled)

/-- One iteration of the Rioter loop in `calculate_effective_votes`: threads
the game, the set of rioters whose own vote is cancelled, and the
redirected-votes map. -/
def processRiotAction (add_results : Bool) (st : Game × List Nat × List (Nat × Nat))
    (act : PlayerAction) : Game × List Nat × List (Nat × Nat) :=
  let (g, rioter_cancelled, redirected) := st
  match act.2.1, act.2.2 with
  | some target_id, some new_target_id =>
    (match g.getPlayer target_id, g.getPlayer act.1 with
     | some _, some actor =>
       if ¬actor.is_alive then (g, rioter_cancelled, redirected)
       else
         let rioter_cancelled := setAdd rioter_cancelled act.1
         if g.is_smoked target_id then
           ((if add_results then g.add_action_result act.1 riotBlockedMsg else g),
            rioter_cancelled, redirected)
         else
           ((if add_results then
               g.add_action_result act.1
                 (riotSuccessMsg (g.get_player_display_name target_id)
                   (g.get_player_display_name new_target_id))
             else g),
            rioter_cancelled, alistSet redirected target_id new_target_id)
     | _, _ => (g, rioter_cancelled, redirected))
  | _, _ => (g, rioter_cancelled, redirected)

/-- One iteration of the final tally loop of `calculate_effective_votes`. -/
def tallyStep (cancelled rioter_cancelled : List Nat) (redirected : List (Nat × Nat))
    (eff : List (VoteTarget × Nat)) (e : Nat × VoteTarget) : List (VoteTarget × Nat) :=
  if e.1 ∈ cancelled then eff
  else if e.1 ∈ rioter_cancelled then eff
  else
    let t := match alistGet redirected e.1 with
             | some nt => VoteTarget.player nt
             | none => e.2
    alistSet eff t (alistGetD eff t 0 + 1)

/-- The tally loop of `calculate_effective_votes`: effective vote counts per
target after dropping cancelled votes and applying redirections. -/
def tallyEffective (raw_votes : List (Nat × VoteTarget)) (cancelled rioter_cancelled : List Nat)
    (redirected : List (Nat × Nat)) : List (VoteTarget × Nat) :=
  raw_votes.foldl (tallyStep cancelled rioter_cancelled redirected) []

/-- Port of `calculate_effective_votes` in helpers/role_actions.py. -/
def calculate_effective_votes (g : Game) (add_results : Bool) :
    List (VoteTarget × Nat) × Game :=
  let raw_votes := g.get_day_votes
  let da := alistGetD g.day_actions g.day_number default
  let st1 := da.cancel_vote.foldl (processSootheAction add_results) (g, [])
  let st2 := da.redirect_vote.foldl (processRiotAction add_results) (st1.1, [], [])
  (tallyEffective raw_votes st1.2 st2.2.1 st2.2.2, st2.1)

/-- Port of `apply_vote_modifications`. -/
def apply_vote_modifications (g : Game) : List (VoteTarget × Nat) × Game :=
  calculate_effective_votes g true

/-- The per-voter decision implicit in the tally loop: the target a voter
effectively votes for, or none when the vote is dropped. -/
def effectiveTargetOf (cancelled rioter_cancelled : List Nat) (redirected : List (Nat × Nat))
    (voter : Nat) (raw : VoteTarget) : Option VoteTarget :=
  if voter ∈ cancelled then none
  else if voter ∈ rioter_cancelled then none
  else some (match alistGet redirected voter with
             | some nt => VoteTarget.player nt
             | none => raw)

theorem alistGetD_set_incr {κ : Type} [DecidableEq κ] (m : List (κ × Nat)) (k t : κ) :
    alistGetD (alistSet m k (alistGetD m k 0 + 1)) t 0 =
      alistGetD m t 0 + (if t = k then 1 else 0) := by
  by_cases h : t = k
  · subst h
    simp [alistGetD, alistGet_set_self]
  · simp [alistGetD, alistGet_set_ne m k t _ h, h]

theorem tallyEffective_go (raw : List (Nat × VoteTarget)) (c rc : List Nat)
    (rd : List (Nat × Nat)) (acc : List (VoteTarget × Nat)) (t : VoteTarget) :
    alistGetD (raw.foldl (tallyStep c rc rd) acc) t 0 =
      alistGetD acc t 0 +
        (raw.filter (fun e => effectiveTargetOf c rc rd e.1 e.2 == some t)).length := by
  induction raw generalizing acc with
  | nil => simp
  | cons e rest ih =>
    simp only [List.foldl_cons, List.filter_cons]
    by_cases hc : e.1 ∈ c
    · have h1 : tallyStep c rc rd acc e = acc := by simp [tallyStep, hc]
      have h2 : (effectiveTargetOf c rc rd e.1 e.2 == some t) = false := by
        simp [effectiveTargetOf, hc]
      rw [h1, h2, ih]
      simp
    · by_cases hrc : e.1 ∈ rc
      · have h1 : tallyStep c rc rd acc e = acc := by simp [tallyStep, hc, hrc]
        have h2 : (effectiveTargetOf c rc rd e.1 e.2 == some t) = false := by
          simp [effectiveTargetOf, hc, hrc]
        rw [h1, h2, ih]
        simp
      · have h1 : tallyStep c rc rd acc e =
            alistSet acc
              (match alistGet rd e.1 with
               | some nt => VoteTarget.player nt
               | none => e.2)
              (alistGetD acc
                (match alistGet rd e.1 with
                 | some nt => VoteTarget.player nt
                 | none => e.2) 0 + 1) := by
          simp [tallyStep, hc, hrc]
        have h2 : (effectiveTargetOf c rc rd e.1 e.2 == some t) =
            ((match alistGet rd e.1 with
              | some nt => VoteTarget.player nt
              | none => e.2) == t) := by
          simp [effectiveTargetOf, hc, hrc]
        rw [h1, h2, ih, alistGetD_set_incr]
        by_cases ht :
            (match alistGet rd e.1 with
             | some nt => VoteTarget.player nt
             | none => e.2) = t
        · have hb : ((match alistGet rd e.1 with
              | some nt => VoteTarget.player nt
              | none => e.2) == t) = true := by simp [ht]
          rw [hb, ht]
          simp
          omega
        · have hb : ((match alistGet rd e.1 with
              | some nt => VoteTarget.player nt
              | none => e.2) == t) = false := by simp [ht]
          have hne : ¬ t = (match alistGet rd e.1 with
              | some nt => VoteTarget.player nt
              | none => e.2) := fun hh => ht hh.symm
          rw [hb, if_neg hne]
          simp

/-- The effective count of each target is the number of raw votes whose
per-voter effective target is that target. -/
theorem tallyEffective_count (raw : List (Nat × VoteTarget)) (c rc : List Nat)
    (rd : List (Nat × Nat)) (t : VoteTarget) :
    alistGetD (tallyEffective raw c rc rd) t 0 =
      (raw.filter (fun e => effectiveTargetOf c rc rd e.1 e.2 == some t)).length := by
  have h := tallyEffective_go raw c rc rd [] t
  simpa [tallyEffective, alistGetD, alistGet] using h

/-- C4: with a single recorded redirect action from a living caster naming a
valid voter and a new target (and no cancel actions recorded), the effective
tally counts exactly the per-voter effective targets, the caster own vote is
always dropped, the named voter's vote counts toward the new target when the
voter is not shielded, and when the voter is shielded it counts toward the
voter's original target and a failure notice is queued for the caster. -/
theorem C4_redirect_vote (g : Game) (a tv nt : Nat)
    (hact : (alistGetD g.day_actions g.day_number default).redirect_vote = [(a, some tv, some nt)])
    (hcanc : (alistGetD g.day_actions g.day_number default).cancel_vote = [])
    (pa : Player) (hpa : g.getPlayer a = some pa) (halive : pa.is_alive = true)
    (ptv : Player) (hptv : g.getPlayer tv = some ptv) (htva : tv ≠ a) :
    (∀ t : VoteTarget,
      alistGetD (calculate_effective_votes g true).1 t 0 =
        (g.get_day_votes.filter
          (fun e => effectiveTargetOf [] [a]
            (if g.is_smoked tv then [] else [(tv, nt)]) e.1 e.2 == some t)).length) ∧
    (∀ raw : VoteTarget,
      effectiveTargetOf [] [a] (if g.is_smoked tv then [] else [(tv, nt)]) a raw = none) ∧
    (g.is_smoked tv = false →
      ∀ raw : VoteTarget,
        effectiveTargetOf [] [a] (if g.is_smoked tv then [] else [(tv, nt)]) tv raw =
          some (VoteTarget.player nt)) ∧
    (g.is_smoked tv = true →
      (∀ raw : VoteTarget,
        effectiveTargetOf [] [a] (if g.is_smoked tv then [] else [(tv, nt)]) tv raw = some raw) ∧
      riotBlockedMsg ∈ alistGetD (calculate_effective_votes g true).2.action_results a []) := by
  have hkey : calculate_effective_votes g true =
      (tallyEffective g.get_day_votes [] [a] (if g.is_smoked tv then [] else [(tv, nt)]),
       if g.is_smoked tv then g.add_action_result a riotBlockedMsg
       else g.add_action_result a
         (riotSuccessMsg (g.get_player_display_name tv) (g.get_player_display_name nt))) := by
    simp only [calculate_effective_votes]
    rw [hcanc, hact]
    simp only [List.foldl_cons, List.foldl_nil]
    simp only [processRiotAction, hptv, hpa, halive]
    by_cases hs : g.is_smoked tv
    · simp [hs, setAdd]
    · simp [hs, setAdd, alistSet]
  refine ⟨?_, ?_, ?_, ?_⟩
  · intro t
    rw [hkey]
    exact tallyEffective_count _ _ _ _ t
  · intro raw
    simp [effectiveTargetOf]
  · intro hs raw
    simp [effectiveTargetOf, htva, hs, alistGet]
  · intro hs
    constructor
    · intro raw
      simp [effectiveTargetOf, htva, hs, alistGet]
    · rw [hkey]
      simp only [hs, if_pos]
      unfold Game.add_action_result
      simp [alistGetD, alistGet_set_self]

/-- A day-phase game with one Rioter (player 5) who redirects the vote of
player 2 onto player 3; nobody is smoked. -/
def gameRiot : Game :=
  { guild_id := 4, status := "active", phase := .Day, day_number := 1,
    players :=
      [(5, { user_id := 5, username := "eve", display_name := "Eve",
             alignment := some "village", role := some "Rioter" }),
       (2, { user_id := 2, username := "finn", display_name := "Finn",
             alignment := some "village" }),
       (3, { user_id := 3, username := "gus", display_name := "Gus",
             alignment := some "elims" })],
    votes := [(1, [(5, VoteTarget.player 2), (2, VoteTarget.player 2)])],
    day_actions := [(1, { cancel_vote := [], redirect_vote := [(5, some 2, some 3)] })] }

theorem C4_redirect_vote_witness :
    effectiveTargetOf [] [5] (if gameRiot.is_smoked 2 then [] else [(2, 3)]) 5
        (VoteTarget.player 2) = none ∧
    effectiveTargetOf [] [5] (if gameRiot.is_smoked 2 then [] else [(2, 3)]) 2
        (VoteTarget.player 2) = some (VoteTarget.player 3) := by
  have h := C4_redirect_vote gameRiot 5 2 3 (by decide) (by decide)
    { user_id := 5, username := "eve", display_name := "Eve",
      alignment := some "village", role := some "Rioter" } (by decide) rfl
    { user_id := 2, username := "finn", display_name := "Finn",
      alignment := some "village" } (by decide) (by decide)
  exact ⟨h.2.1 _, h.2.2.1 (by decide) _⟩

/-- Results record built by `process_night_actions`. -/
structure NightResults where
  kills : List (Nat × String) := []
  saves : List Nat := []
  deaths : List (Nat × Option String × Option String) := []
deriving DecidableEq, Repr

instance : Inhabited NightResults := ⟨{}⟩

/-- Feedback queued for a Lurcher whose target was attacked. -/
def lurcherSavedMsg : String :=
  "Your target was attacked last night. Your protection saved them!"

/-- Feedback for the Thug immediate-survive mode. -/
def thugSurviveMsg : String :=
  "You were attacked but your Thug ability saved you! (One-time use expended)"

/-- Feedback for the Thug one-phase-delay mode. -/
def thugDelayedPhaseMsg : String :=
  "You were attacked! Your Thug ability lets you survive one more phase before death."

/-- Feedback for the Thug one-cycle-delay mode. -/
def thugDelayedCycleMsg : String :=
  "You were attacked! Your Thug ability lets you survive one more full cycle before death."

/-- Feedback for a blocked investigation. -/
def seekBlockedMsg : String :=
  "Your investigation was blocked by interference. You learned nothing."

/-- Investigation result text, role-only reveal mode. -/
def seekRoleMsg (name role : String) : String :=
  name ++ " has the role: " ++ role

/-- Investigation result text, alignment-only reveal mode. -/
def seekAlignMsg (name faction : String) : String :=
  name ++ " is aligned with: " ++ faction

/-- Investigation result text, both reveal mode. -/
def seekBothMsg (name faction role : String) : String :=
  name ++ " is " ++ faction ++ " - " ++ role

/-- Append a value to the list stored under a key of a grouping dict,
creating the entry at the end when the key is new (the Python idiom
`if k not in d: d[k] = []` followed by `d[k].append(v)`). -/
def groupAppend {α : Type} (m : List (Nat × List α)) (k : Nat) (v : α) : List (Nat × List α) :=
  match m with
  | [] => [(k, [v])]
  | e :: rest => if e.1 = k then (e.1, e.2 ++ [v]) :: rest else e :: groupAppend rest k v

/-- The kill-target grouping loops of `process_night_actions`: elim kills
first, then Coinshot kills, also recording which Coinshots submitted a
non-empty kill (the `coinshots_used` set). -/
def collectKillTargets (elim_kills coin_kills : List KillAction) :
    List (Nat × List (String × Nat)) × List Nat :=
  let kt1 := elim_kills.foldl
    (fun m act =>
      match act.2.1 with
      | some (KillTarget.player t) => groupAppend m t ("elim", act.1)
      | _ => m) []
  coin_kills.foldl
    (fun st act =>
      match act.2.1 with
      | some (KillTarget.player t) => (groupAppend st.1 t ("coinshot", act.1), setAdd st.2 act.1)
      | _ => st) (kt1, [])

/-- The ammo-counting loop of `process_night_actions`: every Coinshot who
submitted a non-empty kill gets their usage counter incremented once. -/
def incrementCoinshotAmmo (g : Game) (used : List Nat) : Game :=
  { g with coinshot_kills_used :=
      used.foldl (fun m a => alistSet m a (alistGetD m a 0 + 1)) g.coinshot_kills_used }

/-- The protection grouping loop of `process_night_actions`. -/
def collectProtections (protects : List PlayerAction) : List (Nat × List Nat) :=
  protects.foldl
    (fun m act =>
      match act.2.1 with
      | some t => groupAppend m t act.1
      | none => m) []

/-- The tail of the per-target loop body of `process_night_actions` once a
target dies: record the death and one kill entry for the first killer. -/
def killTargetDies (killers : List (String × Nat)) (target_id : Nat) (player : Player)
    (g : Game) (results : NightResults) : Game × NightResults :=
  let results := { results with
    deaths := results.deaths ++ [(target_id, player.role, player.alignment)] }
  let results :=
    match killers with
    | [] => results
    | (killer_type, _) :: _ => { results with kills := results.kills ++ [(target_id, killer_type)] }
  (g, results)

/-- The per-target loop body of `process_night_actions`: protections cancel a
single kill, then the one-time Thug passive is consulted, otherwise the target
dies.  An unrecognized thug_mode falls through to the death branch after
consuming the passive, exactly as the Python if/elif chain does. -/
def processKillTarget (protections : List (Nat × List Nat)) (st : Game × NightResults)
    (entry : Nat × List (String × Nat)) : Game × NightResults :=
  let (g, results) := st
  let (target_id, killers) := entry
  match g.getPlayer target_id with
  | none => (g, results)
  | some player =>
    if ¬player.is_alive then (g, results)
    else
      let protsHere := alistGetD protections target_id []
      let g1 := if protsHere ≠ [] then
          protsHere.foldl (fun gg pid => gg.add_action_result pid lurcherSavedMsg) g
        else g
      let remaining_kills : Int := (killers.length : Int) - (if protsHere ≠ [] then 1 else 0)
      if remaining_kills ≤ 0 then (g1, { results with saves := results.saves ++ [target_id] })
      else if player.role = some "Thug" ∧ target_id ∉ g1.thug_used then
        let g2 := { g1 with thug_used := setAdd g1.thug_used target_id }
        let results2 := { results with saves := results.saves ++ [target_id] }
        if g2.roles.thug_mode = "survive" then
          (g2.add_action_result target_id thugSurviveMsg, results2)
        else if g2.roles.thug_mode = "delayed_phase" then
          ({ g2.add_action_result target_id thugDelayedPhaseMsg with
              delayed_deaths := g2.delayed_deaths ++ [(target_id, g2.day_number + 1, "night")] },
           results2)
        else if g2.roles.thug_mode = "delayed_cycle" then
          ({ g2.add_action_result target_id thugDelayedCycleMsg with
              delayed_deaths := g2.delayed_deaths ++ [(target_id, g2.day_number + 2, "day")] },
           results2)
        else
          killTargetDies killers target_id player g2 results2
      else
        killTargetDies killers target_id player g1 results

/-- The Seeker loop body of `process_night_actions` (feedback only; the Python
`target_player.role or Vanilla` falsy default is modelled with getD). -/
def processInvestigation (g : Game) (act : PlayerAction) : Game :=
  match act.2.1 with
  | none => g
  | some target_id =>
    match g.getPlayer target_id, g.getPlayer act.1 with
    | some target_player, some seeker =>
      if ¬seeker.is_alive then g
      else if g.is_smoked target_id then g.add_action_result act.1 seekBlockedMsg
      else
        let target_name := g.get_player_display_name target_id
        if g.roles.seeker_mode = "role_only" then
          g.add_action_result act.1 (seekRoleMsg target_name (target_player.role.getD "Vanilla"))
        else if g.roles.seeker_mode = "alignment_only" then
          g.add_action_result act.1
            (seekAlignMsg target_name (g.get_faction_name target_player.alignment))
        else
          g.add_action_result act.1
            (seekBothMsg target_name (g.get_faction_name target_player.alignment)
              (target_player.role.getD "Vanilla"))
    | _, _ => g

/-- Port of `process_night_actions` in helpers/role_actions.py: kill and
protection resolution with the Thug passive, Coinshot ammo counting, and
Seeker investigations. -/
def process_night_actions (g : Game) : Game × NightResults :=
  let na := alistGetD g.night_actions g.day_number default
  let ck := collectKillTargets na.elim_kill na.kill
  let g1 := incrementCoinshotAmmo g ck.2
  let protections := collectProtections na.protect
  let st := ck.1.foldl (processKillTarget protections) (g1, {})
  let g2 := na.investigate.foldl processInvestigation st.1
  (g2, st.2)

/-- A night in which target 1 has two kill claims (elim kill by 2, Coinshot
kill by 3) and two protection claims (Lurchers 4 and 5). -/
def gameTwoProtectors : Game :=
  { guild_id := 5, status := "active", phase := .Night, day_number := 1,
    players :=
      [(1, { user_id := 1, username := "p1", display_name := "P1",
             alignment := some "village", role := some "Vanilla" }),
       (2, { user_id := 2, username := "p2", display_name := "P2",
             alignment := some "elims", role := some "Vanilla" }),
       (3, { user_id := 3, username := "p3", display_name := "P3",
             alignment := some "village", role := some "Coinshot" }),
       (4, { user_id := 4, username := "p4", display_name := "P4",
             alignment := some "village", role := some "Lurcher" }),
       (5, { user_id := 5, username := "p5", display_name := "P5",
             alignment := some "village", role := some "Lurcher" })],
    night_actions :=
      [(1, { elim_kill := [(2, some (KillTarget.player 1), none)],
             kill := [(3, some (KillTarget.player 1), none)],
             protect := [(4, some 1, none), (5, some 1, none)],
             investigate := [] })] }

/-- C1 counterexample: target 1 has K = 2 kill claims and P = 2 protection
claims, so under the claim (each protection cancels one kill; dies only if
K exceeds P) the target survives, but the code cancels only one kill per
protected target and the target dies. -/
theorem C1_protection_counterexample :
    (process_night_actions gameTwoProtectors).2.deaths =
      [(1, some "Vanilla", some "village")] ∧
    (process_night_actions gameTwoProtectors).2.saves = [] := by
  constructor <;> rfl

theorem foldlInvariant {σ β : Type} (P : σ → Prop) (step : σ → β → σ) (l : List β) (s0 : σ)
    (h0 : P s0) (hstep : ∀ s b, P s → P (step s b)) : P (l.foldl step s0) := by
  induction l generalizing s0 with
  | nil => exact h0
  | cons b t ih => exact ih _ (hstep _ _ h0)

theorem add_action_result_players (g : Game) (pid : Nat) (msg : String) :
    (g.add_action_result pid msg).players = g.players := rfl

theorem foldl_add_action_result_players (l : List Nat) (g : Game) (msg : String) :
    (l.foldl (fun gg pid => gg.add_action_result pid msg) g).players = g.players := by
  induction l generalizing g with
  | nil => rfl
  | cons a t ih =>
    rw [List.foldl_cons, ih]
    rfl

theorem killTargetDies_game (ks : List (String × Nat)) (tid : Nat) (p : Player)
    (g : Game) (r : NightResults) : (killTargetDies ks tid p g r).1 = g := by
  unfold killTargetDies
  split <;> rfl

theorem killTargetDies_deaths (ks : List (String × Nat)) (tid : Nat) (p : Player)
    (g : Game) (r : NightResults) :
    (killTargetDies ks tid p g r).2.deaths = r.deaths ++ [(tid, p.role, p.alignment)] := by
  unfold killTargetDies
  split <;> rfl

theorem killTargetDies_saves (ks : List (String × Nat)) (tid : Nat) (p : Player)
    (g : Game) (r : NightResults) :
    (killTargetDies ks tid p g r).2.saves = r.saves := by
  unfold killTargetDies
  split <;> rfl

theorem processKillTarget_players (prot : List (Nat × List Nat)) (st : Game × NightResults)
    (e : Nat × List (String × Nat)) :
    (processKillTarget prot st e).1.players = st.1.players := by
  obtain ⟨g, r⟩ := st
  obtain ⟨t, ks⟩ := e
  simp only [processKillTarget]
  repeat' split
  all_goals
    simp [killTargetDies_game, add_action_result_players, foldl_add_action_result_players]

theorem processKillTarget_mem_other (prot : List (Nat × List Nat)) (st : Game × NightResults)
    (e : Nat × List (String × Nat)) (t : Nat) (hne : e.1 ≠ t) :
    ((t ∈ ((processKillTarget prot st e).2.deaths.map (fun d => d.1))) ↔
      t ∈ (st.2.deaths.map (fun d => d.1))) ∧
    ((t ∈ (processKillTarget prot st e).2.saves) ↔ t ∈ st.2.saves) := by
  obtain ⟨g, r⟩ := st
  obtain ⟨e1, ks⟩ := e
  simp only at hne
  have hsymm : t ≠ e1 := Ne.symm hne
  simp only [processKillTarget]
  repeat' split
  all_goals constructor
  all_goals simp [killTargetDies_deaths, killTargetDies_saves, hsymm]

theorem foldl_processKillTarget_players (prot : List (Nat × List Nat))
    (l : List (Nat × List (String × Nat))) (st : Game × NightResults) :
    ((l.foldl (processKillTarget prot) st).1).players = st.1.players := by
  induction l generalizing st with
  | nil => rfl
  | cons e rest ih =>
    rw [List.foldl_cons, ih, processKillTarget_players]

theorem foldl_processKillTarget_other (prot : List (Nat × List Nat))
    (l : List (Nat × List (String × Nat))) (st : Game × NightResults) (t : Nat)
    (hl : ∀ e ∈ l, e.1 ≠ t) :
    ((t ∈ ((l.foldl (processKillTarget prot) st).2.deaths.map (fun d => d.1))) ↔
      t ∈ (st.2.deaths.map (fun d => d.1))) ∧
    ((t ∈ (l.foldl (processKillTarget prot) st).2.saves) ↔ t ∈ st.2.saves) := by
  induction l generalizing st with
  | nil => exact ⟨Iff.rfl, Iff.rfl⟩
  | cons e rest ih =>
    have h1 := processKillTarget_mem_other prot st e t (hl e (List.mem_cons_self e rest))
    have h2 := ih (processKillTarget prot st e) (fun x hx => hl x (List.mem_cons_of_mem _ hx))
    rw [List.foldl_cons]
    exact ⟨h2.1.trans h1.1, h2.2.trans h1.2⟩

theorem groupAppend_keys {α : Type} (m : List (Nat × List α)) (k : Nat) (v : α) :
    (groupAppend m k v).map (fun e => e.1) =
      if k ∈ m.map (fun e => e.1) then m.map (fun e => e.1)
      else m.map (fun e => e.1) ++ [k] := by
  induction m with
  | nil => simp [groupAppend]
  | cons e rest ih =>
    by_cases h : e.1 = k
    · subst h
      simp [groupAppend]
    · by_cases hk : k ∈ rest.map (fun e => e.1)
      · simp [groupAppend, h, ih, hk, Ne.symm h]
      · simp [groupAppend, h, ih, hk, Ne.symm h]

theorem groupAppend_keys_nodup {α : Type} (m : List (Nat × List α)) (k : Nat) (v : α)
    (h : (m.map (fun e => e.1)).Nodup) :
    ((groupAppend m k v).map (fun e => e.1)).Nodup := by
  rw [groupAppend_keys]
  split
  · exact h
  · rename_i hk
    refine List.Nodup.append h (by simp) ?_
    intro a ha hb
    simp at hb
    subst hb
    exact hk ha

theorem collectKillTargets_keys_nodup (ek ck : List KillAction) :
    (((collectKillTargets ek ck).1).map (fun e => e.1)).Nodup := by
  unfold collectKillTargets
  have h1 : ((ek.foldl
      (fun m act =>
        match act.2.1 with
        | some (KillTarget.player t) => groupAppend m t ("elim", act.1)
        | _ => m) []).map (fun e => e.1)).Nodup := by
    apply foldlInvariant
        (fun m : List (Nat × List (String × Nat)) => (m.map (fun e => e.1)).Nodup)
    · simp
    · intro m act hm
      match act.2.1 with
      | some (KillTarget.player t) => exact groupAppend_keys_nodup m t _ hm
      | some KillTarget.killNone => exact hm
      | none => exact hm
  apply foldlInvariant
      (fun st : List (Nat × List (String × Nat)) × List Nat =>
        ((st.1).map (fun e => e.1)).Nodup)
  · exact h1
  · intro st act hst
    match act.2.1 with
    | some (KillTarget.player t) => exact groupAppend_keys_nodup st.1 t _ hst
    | some KillTarget.killNone => exact hst
    | none => exact hst

theorem alistGet_split {κ α : Type} [DecidableEq κ] (m : List (κ × α)) (k : κ) (v : α)
    (h : alistGet m k = some v) :
    ∃ l1 l2, m = l1 ++ (k, v) :: l2 ∧ ∀ e ∈ l1, e.1 ≠ k := by
  induction m with
  | nil => simp [alistGet] at h
  | cons e rest ih =>
    by_cases he : e.1 = k
    · refine ⟨[], rest, ?_, by simp⟩
      simp only [alistGet, he, if_pos] at h
      obtain ⟨e1, e2⟩ := e
      simp at he h
      rw [he, h]
      simp
    · have h2 : alistGet rest k = some v := by
        simpa [alistGet, he] using h
      obtain ⟨l1, l2, hm, hl1⟩ := ih h2
      refine ⟨e :: l1, l2, by simp [hm], ?_⟩
      intro x hx
      rcases List.mem_cons.mp hx with hx | hx
      · rw [hx]; exact he
      · exact hl1 x hx

theorem processKillTarget_nonThug (prot : List (Nat × List Nat)) (st : Game × NightResults)
    (t : Nat) (ks : List (String × Nat)) (p : Player)
    (hp : st.1.getPlayer t = some p) (halive : p.is_alive = true)
    (hrole : p.role ≠ some "Thug") :
    (processKillTarget prot st (t, ks)).2.deaths =
      st.2.deaths ++
        (if (ks.length : Int) - (if alistGetD prot t [] ≠ [] then 1 else 0) ≤ 0
         then [] else [(t, p.role, p.alignment)]) ∧
    (processKillTarget prot st (t, ks)).2.saves =
      st.2.saves ++
        (if (ks.length : Int) - (if alistGetD prot t [] ≠ [] then 1 else 0) ≤ 0
         then [t] else []) := by
  obtain ⟨g, r⟩ := st
  simp only at hp
  simp only [processKillTarget, hp]
  rw [if_neg (by simp [halive])]
  by_cases hrem : (ks.length : Int) - (if alistGetD prot t [] ≠ [] then 1 else 0) ≤ 0
  · rw [if_pos hrem, if_pos hrem, if_pos hrem]
    simp
  · rw [if_neg hrem, if_neg hrem, if_neg hrem]
    rw [if_neg (by simp [hrole])]
    rw [killTargetDies_deaths, killTargetDies_saves]
    simp

/-- C1 amended: protection claims on a target cancel exactly one kill claim in
total, however many protectors there are.  A living non-Thug target with
K >= 1 kill claims dies iff it has no protection or K >= 2, and is recorded as
saved iff it has at least one protection and K = 1 (so one protector and one
attacker means survival, one protector and two attackers means death). -/
theorem C1_kill_protection_amended (g : Game) (t : Nat) (ks : List (String × Nat)) (p : Player)
    (hkt : alistGet (collectKillTargets
        (alistGetD g.night_actions g.day_number default).elim_kill
        (alistGetD g.night_actions g.day_number default).kill).1 t = some ks)
    (hK : 1 ≤ ks.length)
    (hp : g.getPlayer t = some p) (halive : p.is_alive = true)
    (hrole : p.role ≠ some "Thug") :
    (t ∈ ((process_night_actions g).2.deaths.map (fun d => d.1)) ↔
      (alistGetD (collectProtections
          (alistGetD g.night_actions g.day_number default).protect) t []) = [] ∨
        2 ≤ ks.length) ∧
    (t ∈ (process_night_actions g).2.saves ↔
      (alistGetD (collectProtections
          (alistGetD g.night_actions g.day_number default).protect) t []) ≠ [] ∧
        ks.length = 1) := by
  obtain ⟨l1, l2, hsplit, hl1⟩ := alistGet_split _ _ _ hkt
  have hnd := collectKillTargets_keys_nodup
    (alistGetD g.night_actions g.day_number default).elim_kill
    (alistGetD g.night_actions g.day_number default).kill
  have hl2 : ∀ e ∈ l2, e.1 ≠ t := by
    rw [hsplit] at hnd
    simp only [List.map_append, List.map_cons] at hnd
    have := (List.Nodup.of_append_right hnd)
    rw [List.nodup_cons] at this
    intro e he hc
    exact this.1 (by
      rw [← hc]
      exact List.mem_map_of_mem (fun e => e.1) he)
  simp only [process_night_actions]
  rw [hsplit, List.foldl_append, List.foldl_cons]
  set prot := collectProtections (alistGetD g.night_actions g.day_number default).protect
  set st1 := l1.foldl (processKillTarget prot)
    (incrementCoinshotAmmo g
      (collectKillTargets
        (alistGetD g.night_actions g.day_number default).elim_kill
        (alistGetD g.night_actions g.day_number default).kill).2, ({} : NightResults))
    with hst1
  have hst1p : st1.1.getPlayer t = some p := by
    show alistGet st1.1.players t = some p
    rw [foldl_processKillTarget_players]
    exact hp
  have hmid := processKillTarget_nonThug prot st1 t ks p hst1p halive hrole
  have hbase := foldl_processKillTarget_other prot l1
    (incrementCoinshotAmmo g
      (collectKillTargets
        (alistGetD g.night_actions g.day_number default).elim_kill
        (alistGetD g.night_actions g.day_number default).kill).2, ({} : NightResults)) t hl1
  have hrest := foldl_processKillTarget_other prot l2 (processKillTarget prot st1 (t, ks)) t hl2
  have hmid_deaths : t ∈ ((processKillTarget prot st1 (t, ks)).2.deaths.map (fun d => d.1)) ↔
      ¬((ks.length : Int) - (if alistGetD prot t [] ≠ [] then 1 else 0) ≤ 0) := by
    rw [hmid.1]
    simp only [List.map_append, List.mem_append]
    constructor
    · intro h
      rcases h with h | h
      · exact absurd (hbase.1.mp h) (by simp)
      · intro hc
        rw [if_pos hc] at h
        simp at h
    · intro h
      right
      rw [if_neg h]
      simp
  have hmid_saves : t ∈ (processKillTarget prot st1 (t, ks)).2.saves ↔
      ((ks.length : Int) - (if alistGetD prot t [] ≠ [] then 1 else 0) ≤ 0) := by
    rw [hmid.2]
    simp only [List.mem_append]
    constructor
    · intro h
      rcases h with h | h
      · exact absurd (hbase.2.mp h) (by simp)
      · by_contra hc
        rw [if_neg hc] at h
        simp at h
    · intro h
      right
      rw [if_pos h]
      simp
  have hks : ¬ks = [] := by
    intro hc
    rw [hc] at hK
    simp at hK
  constructor
  · rw [hrest.1, hmid_deaths]
    by_cases hprot : alistGetD prot t [] = []
    · rw [if_neg (fun hc => hc hprot)]
      simp [hprot, hks]
    · rw [if_pos hprot]
      simp [hprot]
      omega
  · rw [hrest.2, hmid_saves]
    by_cases hprot : alistGetD prot t [] = []
    · rw [if_neg (fun hc => hc hprot)]
      simp [hprot, hks]
    · rw [if_pos hprot]
      simp [hprot]
      omega

/-- The same night as `gameTwoProtectors` but with a single protector (4) and
two attackers on target 1. -/
def gameOneProtector : Game :=
  { gameTwoProtectors with
    night_actions :=
      [(1, { elim_kill := [(2, some (KillTarget.player 1), none)],
             kill := [(3, some (KillTarget.player 1), none)],
             protect := [(4, some 1, none)],
             investigate := [] })] }

theorem C1_kill_protection_amended_witness :
    1 ∈ ((process_night_actions gameOneProtector).2.deaths.map (fun d => d.1)) := by
  have h := C1_kill_protection_amended gameOneProtector 1
    [("elim", 2), ("coinshot", 3)]
    { user_id := 1, username := "p1", display_name := "P1",
      alignment := some "village", role := some "Vanilla" }
    (by decide) (by decide) (by decide) rfl (by decide)
  exact h.1.mpr (Or.inr (by decide))

/-- The error text of the AttributeError raised by the missing thug_mode
attribute read. -/
def attrErrorThugMode : String :=
  "AttributeError: Game object has no attribute thug_mode"

/-- Elimination announcement text (names and flavour collapsed). -/
def eliminatedAnnouncement (name : String) : String :=
  name ++ " has been eliminated!"

/-- Port of `GameplayCog._eliminate_player`.  On the execution path the Python
source reads `game.thug_mode`, an attribute that does not exist on the Game
dataclass (the real field is `game.roles.thug_mode`), so when an execution
target is an unconsumed Thug the passive is marked consumed and then an
AttributeError is raised before any of the three mode branches can run;
modelled as an error outcome carried together with the mutated state.  Missing
players raise a KeyError (indexing, not `.get`). -/
def eliminate_player (g : Game) (user_id : Nat) (is_execution : Bool) :
    Game × Except String String :=
  match g.getPlayer user_id with
  | none => (g, .error "KeyError")
  | some player =>
    if is_execution ∧ player.role = some "Thug" ∧ user_id ∉ g.thug_used then
      let g1 := { g with thug_used := setAdd g.thug_used user_id }
      (g1, .error attrErrorThugMode)
    else
      let g1 := { g with
        players := alistSet g.players user_id { player with is_alive := false },
        eliminated := g.eliminated ++ [user_id] }
      (g1, .ok (eliminatedAnnouncement (g.get_player_display_name user_id)))

/-- The error text of the AttributeError raised by the missing
min_votes_to_eliminate attribute read. -/
def attrErrorMinVotes : String :=
  "AttributeError: Game object has no attribute min_votes_to_eliminate"

/-- Port of `GameplayCog._resolve_elimination`.  Its first statement is
min_votes = game.min_votes_to_eliminate, and no such attribute exists on the
Game dataclass: the setting lives at game.config.min_votes_to_eliminate (that
is where setup.py writes it) and nothing in the repository ever assigns the
flat name.  Every call therefore raises AttributeError before the modifier
pass or any election logic runs, leaving the state untouched; the dead code
below the first line is never reached.  `pick` stands for the random.choice
the election logic would have used. -/
def resolve_elimination (pick : List Nat → Nat) (g : Game) : Game × Except String String :=
  (g, Except.error attrErrorMinVotes)

/-- The error text of the AttributeError raised by the missing
game_channel_id attribute read. -/
def attrErrorGameChannelId : String :=
  "AttributeError: Game object has no attribute game_channel_id"

/-- Port of `GameplayCog._auto_end_phase`, the single phase-end routine that
both the manual end_phase command and the scheduler timeout call.  Its first
statement reads game.game_channel_id, which does not exist on the Game
dataclass (the id lives at game.channels.game_channel_id and nothing assigns
the flat name), so the routine raises AttributeError before its try block:
no resolution, vote tally, announcement or phase flip ever happens and the
state is unchanged.  Had it got further, _resolve_elimination
(game.min_votes_to_eliminate), the Day-to-Night transition
(game.night_length_minutes) and _check_pm_closure (game.pm_enabling_roles)
read missing flat attributes too, and the scheduler tick itself already
crashes on game.auto_phase_transition before reaching this routine. -/
def auto_end_phase (g : Game) : Game × Except String String :=
  (g, Except.error attrErrorGameChannelId)

/-- The C3 scenario game: five participants, player 5 on the elim faction,
min-votes 0, three votes for player 1 and two for the no-elimination
sentinel. -/
def gameElection : Game :=
  { guild_id := 6, status := "active", phase := .Day, day_number := 1,
    players :=
      [(1, { user_id := 1, username := "x1", display_name := "X1",
             alignment := some "village", role := some "Vanilla" }),
       (2, { user_id := 2, username := "x2", display_name := "X2",
             alignment := some "village" }),
       (3, { user_id := 3, username := "x3", display_name := "X3",
             alignment := some "village" }),
       (4, { user_id := 4, username := "x4", display_name := "X4",
             alignment := some "village" }),
       (5, { user_id := 5, username := "x5", display_name := "X5",
             alignment := some "elims" })],
    votes :=
      [(1, [(2, VoteTarget.player 1), (3, VoteTarget.player 1), (4, VoteTarget.player 1),
            (1, VoteTarget.voteNone), (5, VoteTarget.voteNone)])] }

/-- C3: the election rule never runs.  The first statement of
`_resolve_elimination` reads the nonexistent attribute
game.min_votes_to_eliminate (the real setting, 0 here, sits at
game.config.min_votes_to_eliminate), so at the scenario input (min-votes 0,
three votes for player 1, two for the no-elimination sentinel) the call
raises AttributeError before any tallying: nobody is eliminated and the
state is unchanged, instead of player 1 being eliminated as the claim
requires. -/
theorem C3_resolve_elimination_crash :
    resolve_elimination (fun l => l.headD 0) gameElection =
      (gameElection, Except.error attrErrorMinVotes) ∧
    gameElection.config.min_votes_to_eliminate = 0 ∧
    gameElection.eliminated = [] := by
  exact ⟨rfl, rfl, rfl⟩

/-- The C2 failing input: a Day-phase game with four living players (three
village, one elim), two votes on player 2, default min-votes 0. -/
def gameRace : Game :=
  { guild_id := 7, status := "active", phase := .Day, day_number := 1,
    players :=
      [(1, { user_id := 1, username := "r1", display_name := "R1",
             alignment := some "village" }),
       (2, { user_id := 2, username := "r2", display_name := "R2",
             alignment := some "village" }),
       (4, { user_id := 4, username := "r4", display_name := "R4",
             alignment := some "village" }),
       (3, { user_id := 3, username := "r3", display_name := "R3",
             alignment := some "elims" })],
    votes := [(1, [(1, VoteTarget.player 2), (3, VoteTarget.player 2)])] }

/-- C2: the phase-end path neither guards nor resolves.  Both the manual
end_phase command and the scheduler timeout funnel into `_auto_end_phase`,
whose first statement reads the nonexistent attribute game.game_channel_id,
so each trigger raises AttributeError and mutates nothing.  At the failing
input, firing both triggers produces zero resolutions instead of the exactly
one the claim requires: the eliminated ledger stays empty and the phase never
flips; and no per-(game, phase) transition guard exists anywhere in the
path. -/
theorem C2_phase_end_no_resolution :
    auto_end_phase gameRace = (gameRace, Except.error attrErrorGameChannelId) ∧
    (auto_end_phase (auto_end_phase gameRace).1).1.eliminated = [] ∧
    (auto_end_phase (auto_end_phase gameRace).1).1.phase = Phase.Day := by
  exact ⟨rfl, rfl, rfl⟩

/-- Modelled from the claim wording of C5: one-phase-delay schedules the
delayed death for trigger-day currentDay+1 at the start of the opposite
phase, one-full-cycle-delay for currentDay+2 at the start of the same phase,
and immediate mode schedules nothing. -/
def claimThugSchedule (current_phase : String) (mode : String) (current_day : Nat) :
    Option (Nat × String) :=
  if mode = "survive" then none
  else if mode = "delayed_phase" then
    some (current_day + 1, if current_phase = "night" then "day" else "night")
  else if mode = "delayed_cycle" then
    some (current_day + 2, current_phase)
  else none

/-- A night on which the Thug (player 1) is attacked with thug_mode
delayed_phase and no protection, during Night 1. -/
def gameThugNight : Game :=
  { guild_id := 8, status := "active", phase := .Night, day_number := 1,
    roles := { thug_mode := "delayed_phase" },
    players :=
      [(1, { user_id := 1, username := "t1", display_name := "T1",
             alignment := some "village", role := some "Thug" }),
       (2, { user_id := 2, username := "t2", display_name := "T2",
             alignment := some "elims" })],
    night_actions :=
      [(1, { elim_kill := [(2, some (KillTarget.player 1), none)] })] }

/-- C5 counterexample: a night attack on an unconsumed Thug in one-phase-delay
mode during Night 1 schedules the delayed death as (day 2, night start) — the
start of the same phase kind as the attack — while the claim prescribes
trigger-day currentDay+1 at the start of the opposite phase, i.e.
(day 2, day start). -/
theorem C5_thug_schedule_counterexample :
    (process_night_actions gameThugNight).1.delayed_deaths = [(1, 2, "night")] ∧
    claimThugSchedule "night" "delayed_phase" 1 = some (2, "day") ∧
    ("night" : String) ≠ "day" := by
  refine ⟨rfl, rfl, by decide⟩

theorem foldl_add_action_result_state (l : List Nat) (g : Game) (msg : String) :
    (l.foldl (fun gg pid => gg.add_action_result pid msg) g).thug_used = g.thug_used ∧
    (l.foldl (fun gg pid => gg.add_action_result pid msg) g).delayed_deaths =
      g.delayed_deaths ∧
    (l.foldl (fun gg pid => gg.add_action_result pid msg) g).day_number = g.day_number ∧
    (l.foldl (fun gg pid => gg.add_action_result pid msg) g).roles = g.roles := by
  induction l generalizing g with
  | nil => exact ⟨rfl, rfl, rfl, rfl⟩
  | cons a t ih =>
    rw [List.foldl_cons]
    exact ih (g.add_action_result a msg)

/-- C5 amended: the one-time survive passive is consumed at most once per
participant.  On the night path an unconsumed Thug facing unresolved kill
claims is marked consumed and saved; immediate mode adds no delayed death,
one-phase-delay schedules (currentDay+1, night start), i.e. the start of the
next phase of the same kind as the attack, and one-cycle-delay schedules
(currentDay+2, day start).  A Thug whose passive is already consumed simply
dies and the consumed set is unchanged.  On the day-execution path the code
reads the nonexistent attribute game.thug_mode, so an unconsumed Thug is
marked consumed and then the routine aborts with an AttributeError before any
mode outcome; an already-consumed Thug is eliminated normally. -/
theorem C5_thug_passive_amended :
    (∀ (prot : List (Nat × List Nat)) (g : Game) (r : NightResults) (t : Nat)
        (ks : List (String × Nat)) (p : Player),
      g.getPlayer t = some p → p.is_alive = true → p.role = some "Thug" →
      t ∉ g.thug_used →
      ¬((ks.length : Int) - (if alistGetD prot t [] ≠ [] then 1 else 0) ≤ 0) →
      ((g.roles.thug_mode = "survive" →
        (processKillTarget prot (g, r) (t, ks)).1.delayed_deaths = g.delayed_deaths ∧
        (processKillTarget prot (g, r) (t, ks)).1.thug_used = setAdd g.thug_used t ∧
        (processKillTarget prot (g, r) (t, ks)).2.saves = r.saves ++ [t] ∧
        (processKillTarget prot (g, r) (t, ks)).2.deaths = r.deaths) ∧
       (g.roles.thug_mode = "delayed_phase" →
        (processKillTarget prot (g, r) (t, ks)).1.delayed_deaths =
          g.delayed_deaths ++ [(t, g.day_number + 1, "night")] ∧
        (processKillTarget prot (g, r) (t, ks)).1.thug_used = setAdd g.thug_used t ∧
        (processKillTarget prot (g, r) (t, ks)).2.saves = r.saves ++ [t] ∧
        (processKillTarget prot (g, r) (t, ks)).2.deaths = r.deaths) ∧
       (g.roles.thug_mode = "delayed_cycle" →
        (processKillTarget prot (g, r) (t, ks)).1.delayed_deaths =
          g.delayed_deaths ++ [(t, g.day_number + 2, "day")] ∧
        (processKillTarget prot (g, r) (t, ks)).1.thug_used = setAdd g.thug_used t ∧
        (processKillTarget prot (g, r) (t, ks)).2.saves = r.saves ++ [t] ∧
        (processKillTarget prot (g, r) (t, ks)).2.deaths = r.deaths))) ∧
    (∀ (prot : List (Nat × List Nat)) (g : Game) (r : NightResults) (t : Nat)
        (ks : List (String × Nat)) (p : Player),
      g.getPlayer t = some p → p.is_alive = true →
      t ∈ g.thug_used →
      ¬((ks.length : Int) - (if alistGetD prot t [] ≠ [] then 1 else 0) ≤ 0) →
      (processKillTarget prot (g, r) (t, ks)).2.deaths =
        r.deaths ++ [(t, p.role, p.alignment)] ∧
      (processKillTarget prot (g, r) (t, ks)).1.thug_used = g.thug_used) ∧
    (∀ (g : Game) (u : Nat) (p : Player),
      g.getPlayer u = some p → p.role = some "Thug" → u ∉ g.thug_used →
      eliminate_player g u true =
        ({ g with thug_used := setAdd g.thug_used u }, Except.error attrErrorThugMode)) ∧
    (∀ (g : Game) (u : Nat) (p : Player),
      g.getPlayer u = some p → u ∈ g.thug_used →
      (eliminate_player g u true).1.eliminated = g.eliminated ++ [u] ∧
      (eliminate_player g u true).1.delayed_deaths = g.delayed_deaths ∧
      (eliminate_player g u true).1.thug_used = g.thug_used) := by
  refine ⟨?_, ?_, ?_, ?_⟩
  · intro prot g r t ks p hp halive hrole hunused hrem
    simp only [processKillTarget, hp]
    set g1 := (if (alistGetD prot t [] : List Nat) ≠ [] then
        (alistGetD prot t []).foldl (fun gg pid => gg.add_action_result pid lurcherSavedMsg) g
      else g) with hg1def
    have hstate : g1.thug_used = g.thug_used ∧ g1.delayed_deaths = g.delayed_deaths ∧
        g1.day_number = g.day_number ∧ g1.roles = g.roles := by
      rw [hg1def]
      split
      · exact foldl_add_action_result_state _ _ _
      · exact ⟨rfl, rfl, rfl, rfl⟩
    rw [if_neg (by simp [halive]), if_neg hrem]
    rw [if_pos ⟨hrole, by rw [hstate.1]; exact hunused⟩]
    refine ⟨?_, ?_, ?_⟩
    · intro hmode
      have hcond : ({ g1 with thug_used := setAdd g1.thug_used t } : Game).roles.thug_mode =
          "survive" := by
        show g1.roles.thug_mode = "survive"
        rw [hstate.2.2.2]
        exact hmode
      rw [if_pos hcond]
      refine ⟨?_, ?_, rfl, rfl⟩
      · show g1.delayed_deaths = g.delayed_deaths
        exact hstate.2.1
      · show setAdd g1.thug_used t = setAdd g.thug_used t
        rw [hstate.1]
    · intro hmode
      have hbase : g1.roles.thug_mode = "delayed_phase" := by
        rw [hstate.2.2.2]
        exact hmode
      have hne1 : ¬({ g1 with thug_used := setAdd g1.thug_used t } : Game).roles.thug_mode =
          "survive" := by
        show ¬g1.roles.thug_mode = "survive"
        rw [hbase]
        decide
      have hcond : ({ g1 with thug_used := setAdd g1.thug_used t } : Game).roles.thug_mode =
          "delayed_phase" := hbase
      rw [if_neg hne1, if_pos hcond]
      refine ⟨?_, ?_, rfl, rfl⟩
      · show g1.delayed_deaths ++ [(t, g1.day_number + 1, "night")] =
          g.delayed_deaths ++ [(t, g.day_number + 1, "night")]
        rw [hstate.2.1, hstate.2.2.1]
      · show setAdd g1.thug_used t = setAdd g.thug_used t
        rw [hstate.1]
    · intro hmode
      have hbase : g1.roles.thug_mode = "delayed_cycle" := by
        rw [hstate.2.2.2]
        exact hmode
      have hne1 : ¬({ g1 with thug_used := setAdd g1.thug_used t } : Game).roles.thug_mode =
          "survive" := by
        show ¬g1.roles.thug_mode = "survive"
        rw [hbase]
        decide
      have hne2 : ¬({ g1 with thug_used := setAdd g1.thug_used t } : Game).roles.thug_mode =
          "delayed_phase" := by
        show ¬g1.roles.thug_mode = "delayed_phase"
        rw [hbase]
        decide
      have hcond : ({ g1 with thug_used := setAdd g1.thug_used t } : Game).roles.thug_mode =
          "delayed_cycle" := hbase
      rw [if_neg hne1, if_neg hne2, if_pos hcond]
      refine ⟨?_, ?_, rfl, rfl⟩
      · show g1.delayed_deaths ++ [(t, g1.day_number + 2, "day")] =
          g.delayed_deaths ++ [(t, g.day_number + 2, "day")]
        rw [hstate.2.1, hstate.2.2.1]
      · show setAdd g1.thug_used t = setAdd g.thug_used t
        rw [hstate.1]
  · intro prot g r t ks p hp halive hin hrem
    simp only [processKillTarget, hp]
    set g1 := (if (alistGetD prot t [] : List Nat) ≠ [] then
        (alistGetD prot t []).foldl (fun gg pid => gg.add_action_result pid lurcherSavedMsg) g
      else g) with hg1def
    have htu : g1.thug_used = g.thug_used := by
      rw [hg1def]
      split
      · exact (foldl_add_action_result_state _ _ _).1
      · rfl
    rw [if_neg (by simp [halive]), if_neg hrem]
    rw [if_neg (by
      intro hc
      exact hc.2 (by rw [htu]; exact hin))]
    constructor
    · rw [killTargetDies_deaths]
    · rw [killTargetDies_game]
      exact htu
  · intro g u p hp hrole hunused
    simp only [eliminate_player, hp]
    rw [if_pos ⟨trivial, hrole, hunused⟩]
  · intro g u p hp hin
    simp only [eliminate_player, hp]
    rw [if_neg (by intro hc; exact hc.2.2 hin)]
    exact ⟨rfl, rfl, rfl⟩

/-- A Day-phase game whose player 1 is an unconsumed Thug facing execution. -/
def gameThugDay : Game :=
  { guild_id := 9, status := "active", phase := .Day, day_number := 1,
    roles := { thug_mode := "survive" },
    players :=
      [(1, { user_id := 1, username := "d1", display_name := "D1",
             alignment := some "village", role := some "Thug" })] }

theorem C5_thug_passive_amended_witness :
    eliminate_player gameThugDay 1 true =
      ({ gameThugDay with thug_used := setAdd gameThugDay.thug_used 1 },
       Except.error attrErrorThugMode) :=
  C5_thug_passive_amended.2.2.1 gameThugDay 1
    { user_id := 1, username := "d1", display_name := "D1",
      alignment := some "village", role := some "Thug" } (by decide) rfl (by decide)

/-- Whether a night kill entry names an actual player (the Python truthiness
test plus the kill_none comparison). -/
def isPlayerKillTarget : Option KillTarget → Bool
  | some (KillTarget.player _) => true
  | _ => false

/-- Outcome of the Coinshot command handler core. -/
inductive CoinshotOutcome
  | rejectedNoAmmo (ammo : Nat)
  | accepted (target : Nat) (ammo_remaining : Option Int)
deriving DecidableEq, Repr

/-- Port of `Game.add_night_action` specialised to the kill action type:
drops any earlier submission by the same actor, then appends the new one. -/
def Game.add_night_action_kill (g : Game) (actor : Nat) (target : Option KillTarget) : Game :=
  let log := alistGetD g.night_actions g.day_number default
  let log2 := { log with
    kill := (log.kill.filter (fun a => a.1 ≠ actor)) ++ [(actor, target, none)] }
  { g with night_actions := alistSet g.night_actions g.day_number log2 }

/-- Port of `handle_coinshot` in handlers/role_actions.py from its ammo check
on (the channel validation and target resolution have already succeeded and
`target` names another living player). -/
def handle_coinshot (g : Game) (user_id : Nat) (target : Nat) : Game × CoinshotOutcome :=
  if 0 < g.roles.coinshot_ammo ∧
      g.roles.coinshot_ammo ≤ alistGetD g.coinshot_kills_used user_id 0 then
    (g, .rejectedNoAmmo g.roles.coinshot_ammo)
  else
    let g1 := g.add_night_action_kill user_id (some (KillTarget.player target))
    let rem : Option Int :=
      if 0 < g1.roles.coinshot_ammo then
        some ((g1.roles.coinshot_ammo : Int) -
          ((alistGetD g1.coinshot_kills_used user_id 0 : Nat) : Int) - 1)
      else none
    (g1, .accepted target rem)

theorem setAdd_mem {α : Type} [DecidableEq α] (s : List α) (x y : α) :
    y ∈ setAdd s x ↔ y ∈ s ∨ y = x := by
  unfold setAdd
  split
  · rename_i h
    constructor
    · exact Or.inl
    · intro hc
      rcases hc with hc | hc
      · exact hc
      · rw [hc]; exact h
  · simp

theorem collectKillTargets_used_mem (ek ck : List KillAction) (a : Nat) :
    a ∈ (collectKillTargets ek ck).2 ↔
      ck.any (fun e => e.1 == a && isPlayerKillTarget e.2.1) := by
  unfold collectKillTargets
  have hgen : ∀ (st : List (Nat × List (String × Nat)) × List Nat),
      (a ∈ (ck.foldl
        (fun st act =>
          match act.2.1 with
          | some (KillTarget.player t) => (groupAppend st.1 t ("coinshot", act.1), setAdd st.2 act.1)
          | _ => st) st).2 ↔
       a ∈ st.2 ∨ ck.any (fun e => e.1 == a && isPlayerKillTarget e.2.1)) := by
    induction ck with
    | nil => intro st; simp
    | cons e rest ih =>
      intro st
      rw [List.foldl_cons, List.any_cons]
      cases he : e.2.1 with
      | none =>
        rw [ih]
        simp [isPlayerKillTarget, he]
      | some kt =>
        cases kt with
        | killNone =>
          rw [ih]
          simp [isPlayerKillTarget, he]
        | player u =>
          rw [ih]
          simp only [setAdd_mem]
          constructor
          · intro h
            rcases h with (h | h) | h
            · exact Or.inl h
            · exact Or.inr (by simp [isPlayerKillTarget, he, h])
            · exact Or.inr (by simp_all)
          · intro h
            rcases h with h | h
            · exact Or.inl (Or.inl h)
            · simp only [Bool.or_eq_true] at h
              rcases h with h | h
              · simp only [Bool.and_eq_true, beq_iff_eq] at h
                exact Or.inl (Or.inr h.1.symm)
              · exact Or.inr (by simpa using h)
  rw [hgen]
  simp

theorem foldl_incr_getD (used : List Nat) (m : List (Nat × Nat)) (hnd : used.Nodup) (a : Nat) :
    alistGetD (used.foldl (fun m a2 => alistSet m a2 (alistGetD m a2 0 + 1)) m) a 0 =
      alistGetD m a 0 + (if a ∈ used then 1 else 0) := by
  induction used generalizing m with
  | nil => simp
  | cons u rest ih =>
    rw [List.foldl_cons]
    have hnd2 := List.nodup_cons.mp hnd
    rw [ih _ hnd2.2, alistGetD_set_incr]
    by_cases ha : a = u
    · subst ha
      have : a ∉ rest := hnd2.1
      simp [this]
    · simp [ha]

theorem setAdd_nodup {α : Type} [DecidableEq α] (s : List α) (x : α) (h : s.Nodup) :
    (setAdd s x).Nodup := by
  unfold setAdd
  split
  · exact h
  · rename_i hx
    refine List.Nodup.append h (by simp) ?_
    intro b hb hb2
    simp at hb2
    subst hb2
    exact hx hb

theorem collectKillTargets_used_nodup (ek ck : List KillAction) :
    ((collectKillTargets ek ck).2).Nodup := by
  unfold collectKillTargets
  apply foldlInvariant
    (fun st : List (Nat × List (String × Nat)) × List Nat => st.2.Nodup)
  · exact List.nodup_nil
  · intro st act hst
    match act.2.1 with
    | some (KillTarget.player t) => exact setAdd_nodup _ _ hst
    | some KillTarget.killNone => exact hst
    | none => exact hst

theorem add_action_result_coinshot (g : Game) (pid : Nat) (msg : String) :
    (g.add_action_result pid msg).coinshot_kills_used = g.coinshot_kills_used := rfl

theorem foldl_add_action_result_coinshot (l : List Nat) (g : Game) (msg : String) :
    (l.foldl (fun gg pid => gg.add_action_result pid msg) g).coinshot_kills_used =
      g.coinshot_kills_used := by
  induction l generalizing g with
  | nil => rfl
  | cons a t ih =>
    rw [List.foldl_cons]
    exact ih _

theorem processKillTarget_coinshot (prot : List (Nat × List Nat)) (st : Game × NightResults)
    (e : Nat × List (String × Nat)) :
    (processKillTarget prot st e).1.coinshot_kills_used = st.1.coinshot_kills_used := by
  obtain ⟨g, r⟩ := st
  obtain ⟨t, ks⟩ := e
  simp only [processKillTarget]
  repeat' split
  all_goals
    simp [killTargetDies_game, add_action_result_coinshot, foldl_add_action_result_coinshot]

theorem foldl_processKillTarget_coinshot (prot : List (Nat × List Nat))
    (l : List (Nat × List (String × Nat))) (st : Game × NightResults) :
    ((l.foldl (processKillTarget prot) st).1).coinshot_kills_used =
      st.1.coinshot_kills_used := by
  induction l generalizing st with
  | nil => rfl
  | cons e rest ih =>
    rw [List.foldl_cons, ih, processKillTarget_coinshot]

theorem processInvestigation_coinshot (g : Game) (act : PlayerAction) :
    (processInvestigation g act).coinshot_kills_used = g.coinshot_kills_used := by
  simp only [processInvestigation]
  repeat' split
  all_goals simp [add_action_result_coinshot]

theorem foldl_processInvestigation_coinshot (l : List PlayerAction) (g : Game) :
    (l.foldl processInvestigation g).coinshot_kills_used = g.coinshot_kills_used := by
  induction l generalizing g with
  | nil => rfl
  | cons a t ih =>
    rw [List.foldl_cons, ih, processInvestigation_coinshot]

/-- C8: the Coinshot usage counter increments by exactly one in a resolved
night iff that actor submitted a non-empty kill claim, whether or not the
kill lands; and with ammo cap 1, a submission made after one counted kill is
rejected with the no-ammo error and the game state is unchanged (no action
recorded). -/
theorem C8_coinshot_ammo (g : Game) (a : Nat) :
    (alistGetD (process_night_actions g).1.coinshot_kills_used a 0 =
      alistGetD g.coinshot_kills_used a 0 +
        (if (alistGetD g.night_actions g.day_number default).kill.any
            (fun e => e.1 == a && isPlayerKillTarget e.2.1) then 1 else 0)) ∧
    (g.roles.coinshot_ammo = 1 → 1 ≤ alistGetD g.coinshot_kills_used a 0 →
      ∀ target, handle_coinshot g a target = (g, CoinshotOutcome.rejectedNoAmmo 1)) := by
  constructor
  · simp only [process_night_actions]
    rw [foldl_processInvestigation_coinshot, foldl_processKillTarget_coinshot]
    simp only [incrementCoinshotAmmo]
    rw [foldl_incr_getD _ _ (collectKillTargets_used_nodup _ _)]
    rw [if_congr (collectKillTargets_used_mem
      (alistGetD g.night_actions g.day_number default).elim_kill
      (alistGetD g.night_actions g.day_number default).kill a) rfl rfl]
  · intro hc hu target
    unfold handle_coinshot
    rw [if_pos ⟨by omega, by omega⟩]
    rw [hc]

/-- A Coinshot (player 1) with ammo cap 1 who has already used one kill. -/
def gameAmmo : Game :=
  { guild_id := 10, status := "active", phase := .Night, day_number := 2,
    roles := { coinshot_ammo := 1 },
    players :=
      [(1, { user_id := 1, username := "c1", display_name := "C1",
             alignment := some "village", role := some "Coinshot" }),
       (2, { user_id := 2, username := "c2", display_name := "C2",
             alignment := some "elims" })],
    coinshot_kills_used := [(1, 1)] }

theorem C8_coinshot_ammo_witness :
    handle_coinshot gameAmmo 1 2 = (gameAmmo, CoinshotOutcome.rejectedNoAmmo 1) :=
  (C8_coinshot_ammo gameAmmo 1).2 rfl (by decide) 2

/-- The powers_pool entry of the Mistborn role in data/roles.py. -/
def mistbornPowersPool : List String :=
  ["Coinshot", "Lurcher", "Rioter", "Soother", "Smoker", "Seeker", "Tineye", "Thug"]

/-- Port of `assign_mistborn_power` in helpers/role_actions.py; `pick` stands
for `random.choice`. -/
def assign_mistborn_power (pick : List String → String) (g : Game) (player_id : Nat) :
    Game × Option String :=
  let all_powers := mistbornPowersPool
  let used0 := alistGetD g.mistborn_powers_used player_id []
  let g1 := if all_powers.length ≤ used0.length then
      { g with mistborn_powers_used := alistSet g.mistborn_powers_used player_id [] }
    else g
  let used := if all_powers.length ≤ used0.length then [] else used0
  let available := all_powers.filter (fun p => p ∉ used)
  if available = [] then (g1, none)
  else
    let power := pick available
    let hist := alistGetD g1.mistborn_powers_used player_id [] ++ [power]
    let g2 := { g1 with mistborn_powers_used := alistSet g1.mistborn_powers_used player_id hist }
    let g3 :=
      { g2 with mistborn_current_power := alistSet g2.mistborn_current_power player_id (some power) }
    (g3, some power)

theorem mistborn_filter_ne_nil (used : List String)
    (hlen : used.length < mistbornPowersPool.length) :
    mistbornPowersPool.filter (fun p => p ∉ used) ≠ [] := by
  intro hc
  have hsub : mistbornPowersPool ⊆ used := by
    intro x hx
    by_contra hnx
    have hmem : x ∈ mistbornPowersPool.filter (fun p => p ∉ used) :=
      List.mem_filter.mpr ⟨hx, by simpa using hnx⟩
    rw [hc] at hmem
    simp at hmem
  have hnd : mistbornPowersPool.Nodup := by decide
  have hle := (List.subperm_of_subset hnd hsub).length_le
  omega

/-- C9: the Mistborn draw always returns a power (the configured pool is
nonempty), the power comes from the pool, within a rotation (history shorter
than the pool) the drawn power is never one already granted, the history is
reset to empty exactly when its length has reached the pool size and the draw
is appended to it, and the draw becomes the current power. -/
theorem C9_mistborn_rotation (pick : List String → String) (g : Game) (pid : Nat)
    (hpick : ∀ l : List String, l ≠ [] → pick l ∈ l) :
    (∃ pw, (assign_mistborn_power pick g pid).2 = some pw) ∧
    (∀ pw, (assign_mistborn_power pick g pid).2 = some pw → pw ∈ mistbornPowersPool) ∧
    (∀ pw, (assign_mistborn_power pick g pid).2 = some pw →
      (alistGetD g.mistborn_powers_used pid []).length < mistbornPowersPool.length →
      pw ∉ alistGetD g.mistborn_powers_used pid []) ∧
    (∀ pw, (assign_mistborn_power pick g pid).2 = some pw →
      alistGetD (assign_mistborn_power pick g pid).1.mistborn_powers_used pid [] =
        (if mistbornPowersPool.length ≤ (alistGetD g.mistborn_powers_used pid []).length
         then [] else alistGetD g.mistborn_powers_used pid []) ++ [pw]) ∧
    (∀ pw, (assign_mistborn_power pick g pid).2 = some pw →
      alistGet (assign_mistborn_power pick g pid).1.mistborn_current_power pid =
        some (some pw)) := by
  have hav : mistbornPowersPool.filter
      (fun p => p ∉ (if mistbornPowersPool.length ≤
        (alistGetD g.mistborn_powers_used pid []).length then ([] : List String)
        else alistGetD g.mistborn_powers_used pid [])) ≠ [] := by
    split
    · exact mistborn_filter_ne_nil [] (by decide)
    · rename_i hc
      exact mistborn_filter_ne_nil _ (by omega)
  simp only [assign_mistborn_power]
  rw [if_neg hav]
  refine ⟨⟨_, rfl⟩, ?_, ?_, ?_, ?_⟩
  · intro pw hpw
    have hmem := hpick _ hav
    injection hpw with hpw
    rw [← hpw]
    exact List.mem_of_mem_filter hmem
  · intro pw hpw hlen
    have hmem := hpick _ hav
    injection hpw with hpw
    rw [← hpw]
    rw [if_neg (show ¬mistbornPowersPool.length ≤
      (alistGetD g.mistborn_powers_used pid []).length by omega)]
    have hthis := (List.mem_filter.mp hmem).2
    rw [if_neg (show ¬mistbornPowersPool.length ≤
      (alistGetD g.mistborn_powers_used pid []).length by omega)] at hthis
    exact of_decide_eq_true hthis
  · intro pw hpw
    injection hpw with hpw
    subst hpw
    split
    · rename_i hc
      simp [alistGetD, alistGet_set_self, hc]
    · rename_i hc
      simp [alistGetD, alistGet_set_self, hc]
  · intro pw hpw
    injection hpw with hpw
    subst hpw
    exact alistGet_set_self _ _ _

/-- A game with a Mistborn (player 1) with an empty draw history. -/
def gameMist : Game :=
  { guild_id := 11, status := "active", phase := .Day, day_number := 1,
    players :=
      [(1, { user_id := 1, username := "m1", display_name := "M1",
             alignment := some "village", role := some "Mistborn" })] }

theorem C9_mistborn_rotation_witness :
    alistGetD (assign_mistborn_power (fun l => l.headD "") gameMist 1).1.mistborn_powers_used
      1 [] = ["Coinshot"] := by
  have h := C9_mistborn_rotation (fun l => l.headD "") gameMist 1 (by
    intro l hl
    cases l with
    | nil => exact absurd rfl hl
    | cons a t => simp)
  have h4 := h.2.2.2.1 "Coinshot" (by decide)
  rw [h4]
  decide

end SEBOT